import Mathlib

/-!
Verification of the lead-scraper pipeline (scraper.py / crm.py).

This file shallowly embeds the pure core of the scraping pipeline:
string heuristics (`_review_is_stale`, `extract_rating`,
`extract_review_count`, `extract_category`), the lead scorer
(`score_lead`), the search-result collection loop
(`extract_listings_from_search`), the detail-field extractor
(`extract_detail_field`), the quality-signal extractor
(`_extract_quality_signals`) and the persistence layer (`upsert_leads`
from scraper.py and `_update_lead` from crm.py).

Python strings are modelled as `String`/`List Char` (ASCII semantics for
`lower`/`strip`/`\s`/`\w`, which covers every string the claims touch),
Python `None`-able values as `Option`, SQLite rows as a Lean structure and
a table as a `List` of rows in insertion order (`maps_link` is UNIQUE, a
`SELECT ... fetchone` is `List.find?`, an `UPDATE ... WHERE` is a `map`
over the rows, an `INSERT` appends).  Python floats for ratings are
modelled as `ℚ`: `extract_rating` only ever produces one-decimal values
between 1.0 and 5.0, on which this is exact.  The regular expressions of
the source are modelled by explicit leftmost-match scanners; comments at
each definition record the pattern being modelled.
-/

/-! ## Basic Python string primitives -/

/-- Python `\s` (ASCII range): the whitespace class of `str.strip()` and of
the regex patterns used by the scraper. -/
def pyWS (c : Char) : Bool :=
  c = ' ' || c = '\t' || c = '\n' || c = '\r' || c = '\x0b' || c = '\x0c'

/-- Python `\w` (ASCII range): a word character for regex word boundaries. -/
def isWordCh (c : Char) : Bool := c.isAlphanum || c = '_'

/-- Python `str.lower()` (ASCII range). -/
def lowerS (s : String) : String := String.mk (s.toList.map Char.toLower)

/-- Helper for `str.strip()`: drop `\s` characters from both ends. -/
def stripL (l : List Char) : List Char :=
  ((l.dropWhile pyWS).reverse.dropWhile pyWS).reverse

/-- Python `str.strip()` with no arguments. -/
def pyStrip (s : String) : String := String.mk (stripL s.toList)

/-- Python `int()` on a string of decimal digits. -/
def digitsToNat (l : List Char) : Nat :=
  l.foldl (fun n c => n * 10 + (c.toNat - 48)) 0

/-- Python `str.replace(",", "")` on a digits-and-commas group. -/
def stripCommas (l : List Char) : List Char := l.filter (fun c => c ≠ ',')

/-- Python substring test `pat in hay` on `List Char`: scan every suffix for
`pat` as a prefix. -/
def containsSub (pat : List Char) : List Char → Bool
  | [] => pat.isEmpty
  | c :: cs => pat.isPrefixOf (c :: cs) || containsSub pat cs

/-- Python substring test `pat in hay` on `String`. -/
def strContains (hay pat : String) : Bool := containsSub pat.toList hay.toList

/-- Python `str.split("\n")`: split at every newline, keeping empty pieces. -/
def splitNLAux : List Char → List Char → List (List Char)
  | [], acc => [acc.reverse]
  | c :: cs, acc =>
    if c = '\n' then acc.reverse :: splitNLAux cs [] else splitNLAux cs (c :: acc)

/-- Python `text.split("\n")` as a list of lines. -/
def splitNL (s : String) : List String :=
  (splitNLAux s.toList []).map String.mk

/-! ## Regex scanners

Each scanner is a leftmost-match model of one concrete pattern of
scraper.py, built with the same greedy/backtracking reasoning as Python's
`re.search` on that pattern (recorded next to each definition). -/

/-- Continuation class of a numeric group: `[\d,]` when `commaOk`, else `\d`. -/
def numRunCont (commaOk : Bool) (c : Char) : Bool :=
  c.isDigit || (commaOk && c = ',')

/-- Leftmost match of `(\d[\d,]*)\s*word` (when `commaOk`) or `(\d+)\s*word`,
returning the numeric group.  `ci` lowers the text before comparing `word`
(Python's `re.IGNORECASE`; `word` is given in lowercase).  Greedy `\d+`/
`[\d,]*`/`\s*` never need to backtrack here because the characters they
release can satisfy neither the following `\s*` nor `word`. -/
def scanNumWord (commaOk ci : Bool) (word : List Char) : List Char → Option (List Char)
  | [] => none
  | c :: cs =>
    if c.isDigit then
      let run := c :: cs.takeWhile (numRunCont commaOk)
      let rest := (cs.dropWhile (numRunCont commaOk)).dropWhile pyWS
      let tgt := if ci then rest.map Char.toLower else rest
      if word.isPrefixOf tgt then some run else scanNumWord commaOk ci word cs
    else scanNumWord commaOk ci word cs

/-- Numeric value of the first `(\d+)\s*month` match, scraper.py line 218. -/
def firstMonthNum (l : List Char) : Option Nat :=
  (scanNumWord false false "month".toList l).map digitsToNat

/-! ## `_review_is_stale` (scraper.py lines 209-221) -/

/-- Embeds `_review_is_stale`: empty text is stale, text containing "year"
(after lowering) is stale, a first `(\d+)\s*month` match with value ≥ 6 is
stale, anything else is not. -/
def _review_is_stale (newest_review_text : String) : Bool :=
  if newest_review_text = "" then true
  else
    let text := lowerS newest_review_text
    if strContains text "year" then true
    else
      match firstMonthNum text.toList with
      | some n => if 6 ≤ n then true else false
      | none => false

/-- Modelled from the spec wording of the staleness rule, existential
reading: the predicate under which the text holds some `N month` occurrence
(a digit run followed by optional whitespace and "month") with `N ≥ 6` —
not merely the first one.  Used to compare the claim's wording with
`_review_is_stale`. -/
def anyMonthGE6 : List Char → Bool
  | [] => false
  | c :: cs =>
    (c.isDigit
      && "month".toList.isPrefixOf ((cs.dropWhile Char.isDigit).dropWhile pyWS)
      && decide (6 ≤ digitsToNat (c :: cs.takeWhile Char.isDigit)))
    || anyMonthGE6 cs

/-- Modelled from the spec wording: empty, or contains "year", or matches
"N month" with N ≥ 6 (existential over occurrences). -/
def specStale (t : String) : Bool :=
  (t == "") || strContains (lowerS t) "year" || anyMonthGE6 (lowerS t).toList

/-! ## `score_lead` (scraper.py lines 157-206) -/

/-- The quality signals `score_lead` reads off a listing dict via `.get`:
`None`-able numbers as `Option`, booleans, and the two strings. -/
structure SignalRecord where
  review_count : Option Int
  rating : Option ℚ
  photo_count : Option Int
  has_description : Bool
  has_services : Bool
  owner_responds : Bool
  newest_review : String
  website : String
deriving DecidableEq

/-- Python `f"rating {rating}"`'s float formatting, for the one-decimal
ratings `extract_rating` produces (e.g. `3.5 ↦ "3.5"`, `4.0 ↦ "4.0"`). -/
def ratingRepr (q : ℚ) : String :=
  let t : Int := Int.floor (q * 10)
  toString (t / 10) ++ "." ++ toString (t % 10)

/-- Embeds `score_lead`: the eight additive checks in source order, each
appending its reason string.  `listing.get("review_count") or 0` is
`Option.getD 0` (exact here: `0 or 0` is also `0`), and
`rating is not None and rating < 4.0` is the `match` on the option. -/
def score_lead (listing : SignalRecord) : Nat × List String :=
  let review_count : Int := listing.review_count.getD 0
  let rating := listing.rating
  let photo_count : Int := listing.photo_count.getD 0
  let has_desc := listing.has_description
  let has_svc := listing.has_services
  let owner_resp := listing.owner_responds
  let newest := listing.newest_review
  let website := listing.website
  let a1 : Nat × List String :=
    if review_count < 10 then (0 + 3, [] ++ ["<10 reviews"]) else (0, [])
  let a2 := if !owner_resp then (a1.1 + 2, a1.2 ++ ["no owner responses"]) else a1
  let a3 := if photo_count < 5 then (a2.1 + 2, a2.2 ++ ["<5 photos"]) else a2
  let a4 := match rating with
    | some r => if r < 4 then (a3.1 + 2, a3.2 ++ ["rating " ++ ratingRepr r]) else a3
    | none => a3
  let a5 := if !has_desc then (a4.1 + 1, a4.2 ++ ["no description"]) else a4
  let a6 := if !has_svc then (a5.1 + 1, a5.2 ++ ["no services listed"]) else a5
  let a7 := if _review_is_stale newest then (a6.1 + 2, a6.2 ++ ["no recent reviews"]) else a6
  let a8 := if website = "" then (a7.1 + 1, a7.2 ++ ["no website"]) else a7
  a8

/-- Condition "rating present and < 4.0" of the spec's scoring table. -/
def ratingBelow4 : Option ℚ → Bool
  | some r => decide (r < 4)
  | none => false

/-- Modelled from the spec's scoring table: each row as (condition, points,
reason text), in table order. -/
def scoringTable (l : SignalRecord) : List (Bool × Nat × String) :=
  [(decide (l.review_count.getD 0 < 10), 3, "<10 reviews"),
   (!l.owner_responds, 2, "no owner responses"),
   (decide (l.photo_count.getD 0 < 5), 2, "<5 photos"),
   (ratingBelow4 l.rating, 2, "rating " ++ ratingRepr (l.rating.getD 0)),
   (!l.has_description, 1, "no description"),
   (!l.has_services, 1, "no services listed"),
   (_review_is_stale l.newest_review, 2, "no recent reviews"),
   (l.website == "", 1, "no website")]

/-- Modelled from the spec: the score is the sum of the triggered rows'
points and the reasons are the triggered rows' texts in table order. -/
def scoreTableSpec (l : SignalRecord) : Nat × List String :=
  ((((scoringTable l).filter (fun e => e.1)).map (fun e => e.2.1)).sum,
   ((scoringTable l).filter (fun e => e.1)).map (fun e => e.2.2))

/-- Points carried by each reason string `score_lead` can emit (the "rating
{value}" reasons are recognised by their first seven characters). -/
def reasonPoints (s : String) : Nat :=
  if s.toList.take 7 = "rating ".toList then 2
  else if s = "<10 reviews" then 3
  else if s = "no owner responses" then 2
  else if s = "<5 photos" then 2
  else if s = "no description" then 1
  else if s = "no services listed" then 1
  else if s = "no recent reviews" then 2
  else if s = "no website" then 1
  else 0

/-! ## Scoring lemmas -/

set_option maxHeartbeats 4000000 in
theorem score_lead_eq_table (l : SignalRecord) : score_lead l = scoreTableSpec l := by
  obtain ⟨rc, rat, pc, hd, hs, orsp, nr, ws⟩ := l
  rcases rat with _ | r
  · by_cases h1 : rc.getD 0 < 10 <;> by_cases h3 : pc.getD 0 < 5 <;>
    by_cases h7 : _review_is_stale nr = true <;> by_cases h8 : ws = "" <;>
    rcases orsp <;> rcases hd <;> rcases hs <;>
    simp [score_lead, scoreTableSpec, scoringTable, ratingBelow4, h1, h3, h7, h8]
  · by_cases h4 : r < 4 <;> by_cases h1 : rc.getD 0 < 10 <;> by_cases h3 : pc.getD 0 < 5 <;>
    by_cases h7 : _review_is_stale nr = true <;> by_cases h8 : ws = "" <;>
    rcases orsp <;> rcases hd <;> rcases hs <;>
    simp [score_lead, scoreTableSpec, scoringTable, ratingBelow4, h1, h3, h4, h7, h8]

theorem reasonPoints_rating (s : String) : reasonPoints ("rating " ++ s) = 2 := by
  unfold reasonPoints
  rw [if_pos]
  show List.take 7 ("rating " ++ s).data = "rating ".data
  rw [String.data_append]
  exact List.take_left' rfl

/-- C2: `score_lead` returns the additive sum of the scoring table together
with the triggered reason strings in table order (left conjunct: it equals
the table-driven specification on every input), and on the signals
{review_count=3, owner_responds=false, photo_count=2, rating=3.5,
has_description=false, has_services=false, newest_review="2 years ago",
website=""} it yields score 14 with the eight reasons in table order
(right conjunct). -/
theorem score_lead_table_and_example :
    (∀ l : SignalRecord, score_lead l = scoreTableSpec l) ∧
    score_lead ⟨some 3, some (7/2), some 2, false, false, false, "2 years ago", ""⟩ =
      (14, ["<10 reviews", "no owner responses", "<5 photos", "rating 3.5", "no description",
            "no services listed", "no recent reviews", "no website"]) := by
  refine ⟨score_lead_eq_table, ?_⟩
  have hrepr : ratingRepr (7/2) = "3.5" := by
    unfold ratingRepr
    have h1 : ((7:ℚ)/2) * 10 = ((35:Int):ℚ) := by norm_num
    rw [h1, Int.floor_intCast]
    rfl
  have hst : _review_is_stale "2 years ago" = true := by decide
  norm_num [score_lead, hst, hrepr]
  rfl

set_option maxHeartbeats 4000000 in
/-- C9: for every signal record the score of `score_lead` is at least 0
(it is a `Nat` by construction: every contribution is additive and
non-negative) and at most 14, equals the sum of the point values of
exactly the reasons returned alongside it, and is 0 exactly when the
returned reasons list is empty. -/
theorem score_lead_bounds_sum_empty (l : SignalRecord) :
    (score_lead l).1 ≤ 14 ∧
    (score_lead l).1 = ((score_lead l).2.map reasonPoints).sum ∧
    ((score_lead l).1 = 0 ↔ (score_lead l).2 = []) := by
  obtain ⟨rc, rat, pc, hd, hs, orsp, nr, ws⟩ := l
  rcases rat with _ | r
  · by_cases h1 : rc.getD 0 < 10 <;> by_cases h3 : pc.getD 0 < 5 <;>
    by_cases h7 : _review_is_stale nr = true <;> by_cases h8 : ws = "" <;>
    rcases orsp <;> rcases hd <;> rcases hs <;>
    simp [score_lead, reasonPoints, h1, h3, h7, h8]
  · by_cases h4 : r < 4 <;> by_cases h1 : rc.getD 0 < 10 <;> by_cases h3 : pc.getD 0 < 5 <;>
    by_cases h7 : _review_is_stale nr = true <;> by_cases h8 : ws = "" <;>
    rcases orsp <;> rcases hd <;> rcases hs <;>
    simp [score_lead, reasonPoints, reasonPoints_rating, h1, h3, h4, h7, h8]

/-! ## Staleness heuristic (claim C3) -/

theorem containsSub_iff {pat l : List Char} : containsSub pat l = true ↔ pat <:+: l := by
  induction l with
  | nil => simp [containsSub, List.isEmpty_iff]
  | cons c cs ih => simp [containsSub, List.infix_cons_iff, List.isPrefixOf_iff_prefix, ih]

/-- C3 counterexample: on "1 month 7 months ago" the code's predicate is
false (the first `(\d+)\s*month` match is "1 month", and 1 < 6) although
the text does contain an "N month" occurrence with N ≥ 6 ("7 month"), so
the claim's "matches \"N month\" with N >= 6" reading is satisfied and the
claim, as stated, predicts stale. -/
theorem stale_spec_vs_code_cex :
    _review_is_stale "1 month 7 months ago" = false ∧
    specStale "1 month 7 months ago" = true := by decide

/-- C3 amended: the staleness predicate holds exactly when the text is
empty, or contains "year" (case-insensitively), or the FIRST "N month"
match of the text has N ≥ 6 — `re.search` only examines the leftmost
match; plus the five concrete examples of the claim, which are unaffected
by the amendment. -/
theorem review_is_stale_characterisation :
    (∀ t : String, _review_is_stale t = true ↔
       (t = "" ∨ "year".toList <:+: (lowerS t).toList ∨
        ∃ n, firstMonthNum (lowerS t).toList = some n ∧ 6 ≤ n)) ∧
    _review_is_stale "" = true ∧ _review_is_stale "a year ago" = true ∧
    _review_is_stale "3 months ago" = false ∧ _review_is_stale "8 months ago" = true ∧
    _review_is_stale "2 days ago" = false := by
  refine ⟨?_, by decide, by decide, by decide, by decide, by decide⟩
  intro t
  by_cases h0 : t = ""
  · simp [_review_is_stale, h0]
  · simp only [_review_is_stale, if_neg h0]
    by_cases hy : strContains (lowerS t) "year" = true
    · simp only [hy, if_true, true_iff]
      exact Or.inr (Or.inl (by simpa using containsSub_iff.mp hy))
    · simp only [strContains] at hy
      rcases heq : firstMonthNum (lowerS t).toList with _ | n
      · simp [strContains, hy, h0, heq, ← containsSub_iff]
      · by_cases h6 : 6 ≤ n
        · simp [strContains, hy, h0, heq, h6, ← containsSub_iff]
        · simp [strContains, hy, h0, heq, h6, ← containsSub_iff]

/-! ## `extract_category` (scraper.py lines 399-415) -/

/-- Regex `^[0-9(.$]` of `extract_category`: the line starts with a digit,
an opening parenthesis, a dot or a dollar sign. -/
def startsCatSkip : List Char → Bool
  | [] => false
  | c :: _ => c.isDigit || c = '(' || c = '.' || c = '$'

/-- The loop body of `extract_category`, mirroring the source's
`continue`/`return` structure over the split lines. -/
def catLoop (name : String) : List String → String
  | [] => ""
  | line0 :: ls =>
    let line := pyStrip line0
    if line = name then catLoop name ls
    else if line = "" then catLoop name ls
    else if startsCatSkip line.toList then catLoop name ls
    else if strContains (lowerS line) "review" then catLoop name ls
    else if line.length < 60 ∧ ¬ ("Open".toList.isPrefixOf line.toList)
         ∧ ¬ ("Closed".toList.isPrefixOf line.toList) then line
    else catLoop name ls

/-- Embeds `extract_category`: split the text block on newlines and return
the first surviving stripped line, else "". -/
def extract_category (text name : String) : String := catLoop name (splitNL text)

/-- Modelled from the claim's wording of the category filter: not the
display name, not empty, not started by a digit or currency symbol, not
containing "review", under 60 characters (and nothing else). -/
def specCatOk (name line : String) : Bool :=
  !(line == name) && !(line == "")
  && !(match line.toList with | [] => false | c :: _ => c.isDigit || c = '$')
  && !(strContains (lowerS line) "review") && decide (line.length < 60)

/-- Modelled from the claim's wording: the first (stripped) line passing
`specCatOk`, else "". -/
def specFirstCategoryLine (text name : String) : String :=
  ((((splitNL text).map pyStrip).find? (fun line => specCatOk name line))).getD ""

/-- The complete per-line filter the code actually applies (claim C7
amended): also skips lines starting with '(', '.', '$' and lines starting
with "Open" or "Closed". -/
def catKeep (name line : String) : Bool :=
  !(line == name) && !(line == "") && !(startsCatSkip line.toList)
  && !(strContains (lowerS line) "review") && decide (line.length < 60)
  && !("Open".toList.isPrefixOf line.toList)
  && !("Closed".toList.isPrefixOf line.toList)

/-! ## `extract_rating` (scraper.py lines 377-384) -/

/-- Character class `[1-5]` of the rating pattern. -/
def ratingDigit (c : Char) : Bool := '1' ≤ c && c ≤ '5'

/-- Word boundary `\b` after a match: end of text or a non-word character. -/
def boundaryAfter : List Char → Bool
  | [] => true
  | x :: _ => !(isWordCh x)

/-- Leftmost match of `\b([1-5](?:\.\d)?)\b`, scanning with the previous
character for the leading boundary.  At a candidate digit the greedy
optional group `(?:\.\d)` is tried first; if its trailing boundary fails
the bare digit is tried (its trailing boundary is the '.', a non-word
character, so it succeeds); otherwise the scan moves on. -/
def ratingScan : Option Char → List Char → Option ℚ
  | _, [] => none
  | prev, c :: cs =>
    let bOk := match prev with | none => true | some p => !(isWordCh p)
    if bOk && ratingDigit c then
      match cs with
      | '.' :: d :: rest =>
        if d.isDigit && boundaryAfter rest then
          some ((c.toNat - 48 : ℚ) + (d.toNat - 48 : ℚ) / 10)
        else some ((c.toNat - 48 : ℚ))
      | _ =>
        if boundaryAfter cs then some ((c.toNat - 48 : ℚ))
        else ratingScan (some c) cs
    else ratingScan (some c) cs

/-- Embeds `extract_rating`: the first `\b([1-5](?:\.\d)?)\b` match, kept
only when its value lies in [1.0, 5.0] (a first match such as "5.5" makes
the function return None without searching further, as in the source). -/
def extract_rating (text : String) : Option ℚ :=
  match ratingScan none text.toList with
  | some val => if 1 ≤ val ∧ val ≤ 5 then some val else none
  | none => none

/-! ## `extract_review_count` (scraper.py lines 387-396) -/

/-- Leftmost match of `\(([0-9,]+)\)`: an opening parenthesis, a maximal
nonempty run of digits and commas, a closing parenthesis; returns the
group. -/
def parenNum : List Char → Option (List Char)
  | [] => none
  | c :: cs =>
    if c = '(' then
      let run := cs.takeWhile (numRunCont true)
      let rest := cs.dropWhile (numRunCont true)
      if !run.isEmpty && rest.head? == some ')' then some run else parenNum cs
    else parenNum cs

/-- Embeds `extract_review_count`.  `int(group.replace(",", ""))` raises
`ValueError` when the first pattern's group is all commas (e.g. "(,)");
that Python exception is the `.error` case, which the collection loop's
`except Exception: continue` turns into a skipped card. -/
def extract_review_count (text : String) : Except Unit (Option Int) :=
  match parenNum text.toList with
  | some run =>
    let ds := stripCommas run
    if ds.isEmpty then .error () else .ok (some (digitsToNat ds : Int))
  | none =>
    match scanNumWord true true "review".toList text.toList with
    | some run => .ok (some (digitsToNat (stripCommas run) : Int))
    | none => .ok none

/-! ## `extract_listings_from_search` (scraper.py lines 304-374) -/

/-- A result anchor as the collection loop reads it: its `href` attribute,
its `aria-label` attribute and the visible text of its parent container
(each already defaulted to "" by the source's `or ""`). -/
structure Anchor where
  href : String
  ariaLabel : String
  parentText : String

/-- The `if not href or "/maps/place/" not in href: continue` filter. -/
def validHref (href : String) : Bool := (href != "") && strContains href "/maps/place/"

/-- The display name: `aria.strip()`. -/
def cardName (c : Anchor) : String := pyStrip c.ariaLabel

/-- A listing dict as the pipeline builds it in phase 1 (detail fields are
filled in phase 2; here they carry the phase-1 defaults). -/
structure Listing where
  name : String
  rating : Option ℚ
  review_count : Option Int
  category : String
  maps_link : String
  address : String
  phone : String
  website : String
  photo_url : String
  photo_count : Option Int
  has_description : Bool
  has_services : Bool
  owner_responds : Bool
  newest_review : String
  has_hours : Bool
  lead_score : Int
  score_reasons : String

/-- The stub listing appended for a freshly seen card (scraper.py lines
344-365), with the phase-2 fields at their phase-1 defaults. -/
def stubListing (c : Anchor) (rc : Option Int) : Listing :=
  { name := cardName c,
    rating := extract_rating c.parentText,
    review_count := rc,
    category := extract_category c.parentText (cardName c),
    maps_link := c.href,
    address := "", phone := "", website := "", photo_url := "",
    photo_count := some 0,
    has_description := false, has_services := false, owner_responds := false,
    newest_review := "", has_hours := false,
    lead_score := 0, score_reasons := "" }

/-- The collection loop: stop when the maximum is reached, skip cards with
an invalid href or an empty or already-seen name, record the name before
extracting (so a card whose review-count extraction raises is skipped but
its name stays in `seen_names`, exactly as the source's `try`/`except`
around the loop body behaves). -/
def collectGo : List Anchor → Nat → List String → List Listing
  | [], _, _ => []
  | c :: cs, remaining, seen =>
    if remaining = 0 then []
    else if !(validHref c.href) then collectGo cs remaining seen
    else
      let name := cardName c
      if name = "" then collectGo cs remaining seen
      else if name ∈ seen then collectGo cs remaining seen
      else
        match extract_review_count c.parentText with
        | .error _ => collectGo cs remaining (name :: seen)
        | .ok rc => stubListing c rc :: collectGo cs (remaining - 1) (name :: seen)

/-- Embeds `extract_listings_from_search` over the anchors found on the
page, with `max_listings` as the bound. -/
def extract_listings_from_search (cards : List Anchor) (max_listings : Nat) : List Listing :=
  collectGo cards max_listings []

/-- Whether a card's review-count extraction succeeds (no `ValueError`). -/
def reviewOk (c : Anchor) : Bool :=
  match extract_review_count c.parentText with
  | .ok _ => true
  | .error _ => false

/-- The extracted review count of a card whose extraction succeeds. -/
def reviewVal (c : Anchor) : Option Int :=
  match extract_review_count c.parentText with
  | .ok v => v
  | .error _ => none

/-- The stub the loop would append for a card (using its own extraction
results). -/
def mkStub (c : Anchor) : Listing := stubListing c (reviewVal c)

/-- A card that produces a stub: valid href, nonempty stripped name, and a
review-count extraction that does not raise. -/
def stubOk (c : Anchor) : Bool :=
  validHref c.href && (cardName c != "") && reviewOk c

/-! ## The leads table and `upsert_leads` (scraper.py lines 52-150) -/

/-- One row of the `leads` table, fields in schema order (init_db).
Nullable SQL columns that the claims exercise are `Option`s; boolean
quality flags are stored as the Python booleans that were bound. -/
structure LeadRow where
  name : String
  address : String
  phone : String
  website : String
  rating : Option ℚ
  review_count : Option Int
  category : String
  maps_link : String
  photo_url : String
  photo_count : Option Int
  has_description : Bool
  has_services : Bool
  owner_responds : Bool
  newest_review : String
  has_hours : Bool
  lead_score : Int
  score_reasons : String
  contact_status : String
  last_contacted : Option String
  notes : Option String
  query : String
  scraped_at : String
  updated_at : String

/-- The `SELECT ... WHERE maps_link = ? ... fetchone()` lookup: the first
row of the table with that canonical link. -/
def findRow (db : List LeadRow) (k : String) : Option LeadRow :=
  db.find? (fun r => r.maps_link == k)

/-- The UPDATE branch of `upsert_leads` applied to one row: overwrite every
scraped, quality, scoring and provenance column and `updated_at`; the row
keeps `contact_status`, `last_contacted`, `notes`, `scraped_at` (and its
`maps_link`, which the SET list does not mention). -/
def updateScraped (lead : Listing) (q now : String) (r : LeadRow) : LeadRow :=
  { r with
    name := lead.name, address := lead.address, phone := lead.phone,
    website := lead.website, rating := lead.rating,
    review_count := lead.review_count, category := lead.category,
    photo_url := lead.photo_url, photo_count := lead.photo_count,
    has_description := lead.has_description, has_services := lead.has_services,
    owner_responds := lead.owner_responds, newest_review := lead.newest_review,
    has_hours := lead.has_hours, lead_score := lead.lead_score,
    score_reasons := lead.score_reasons, query := q, updated_at := now }

/-- The INSERT branch of `upsert_leads`: a fresh row with
`contact_status = 'new'`, `last_contacted` and `notes` left NULL (they are
absent from the column list), and `scraped_at = updated_at = now`. -/
def insertRow (lead : Listing) (q now : String) : LeadRow :=
  ⟨lead.name, lead.address, lead.phone, lead.website, lead.rating,
   lead.review_count, lead.category, lead.maps_link, lead.photo_url,
   lead.photo_count, lead.has_description, lead.has_services,
   lead.owner_responds, lead.newest_review, lead.has_hours,
   lead.lead_score, lead.score_reasons, "new", none, none, q, now, now⟩

/-- One iteration of the `upsert_leads` loop: look the canonical link up;
if found, run the UPDATE (which touches every row whose `maps_link`
matches), else append the INSERT. -/
def upsertOne (db : List LeadRow) (lead : Listing) (q now : String) : List LeadRow :=
  match findRow db lead.maps_link with
  | some _ =>
    db.map (fun r => if r.maps_link == lead.maps_link then updateScraped lead q now r else r)
  | none => db ++ [insertRow lead q now]

/-- Embeds `upsert_leads`: the loop over the listings, with `now` computed
once per call. -/
def upsert_leads (db : List LeadRow) (listings : List Listing) (q now : String) : List LeadRow :=
  listings.foldl (fun d lead => upsertOne d lead q now) db

/-- Number of rows holding a canonical link. -/
def countLink (db : List LeadRow) (k : String) : Nat :=
  db.countP (fun r => r.maps_link == k)

/-! ## `CRMHandler._update_lead` (crm.py lines 660-669) -/

/-- The JSON body of a `/api/update` request: `contact_status` and
`maps_link` are read with `data[...]` (required), the other two with
`data.get(...)` (absent is `none`). -/
structure UpdateRequest where
  maps_link : String
  contact_status : String
  last_contacted : Option String
  notes : Option String

/-- Python `data.get(k) or None`: a missing or empty (falsy) string
becomes SQL NULL. -/
def orNone : Option String → Option String
  | none => none
  | some s => if s = "" then none else some s

/-- Embeds `_update_lead`: one SQL UPDATE setting `contact_status`,
`last_contacted`, `notes` and `updated_at` on every row whose `maps_link`
matches. -/
def _update_lead (db : List LeadRow) (data : UpdateRequest) (now : String) : List LeadRow :=
  db.map (fun r =>
    if r.maps_link == data.maps_link then
      { r with contact_status := data.contact_status,
               last_contacted := orNone data.last_contacted,
               notes := orNone data.notes,
               updated_at := now }
    else r)

/-! ## Persistence theorems (claims C1, C4, C10) -/

theorem updateScraped_maps_link (lead : Listing) (q now : String) (r : LeadRow) :
    (updateScraped lead q now r).maps_link = r.maps_link := rfl

theorem findRow_map_upd (lead : Listing) (q now : String) (db : List LeadRow) :
    findRow (db.map (fun r => if r.maps_link == lead.maps_link
               then updateScraped lead q now r else r)) lead.maps_link
      = (findRow db lead.maps_link).map (updateScraped lead q now) := by
  induction db with
  | nil => rfl
  | cons a l ih =>
    by_cases h : a.maps_link == lead.maps_link
    · simp only [findRow, List.map_cons] at *
      rw [if_pos h]
      have h2 : ((updateScraped lead q now a).maps_link == lead.maps_link) = true := by
        rw [updateScraped_maps_link]; exact h
      rw [List.find?_cons_of_pos (p := fun r : LeadRow => r.maps_link == lead.maps_link) _ h2,
          List.find?_cons_of_pos (p := fun r : LeadRow => r.maps_link == lead.maps_link) _ h]
      rfl
    · simp only [findRow, List.map_cons] at *
      rw [if_neg h]
      rw [List.find?_cons_of_neg (p := fun r : LeadRow => r.maps_link == lead.maps_link) _ h,
          List.find?_cons_of_neg (p := fun r : LeadRow => r.maps_link == lead.maps_link) _ h]
      exact ih

/-- C1: when no stored record has the listing's canonical link, `upsert`
appends a fresh record whose CRM fields are defaulted (`contact_status`
"new", `last_contacted` and `notes` NULL), whose scraped, quality, score
and provenance fields come from the listing (empty values included —
they are copied as given), and whose `scraped_at` and `updated_at` are
both `now`; when a record with that link exists, the record found at that
link afterwards carries every scraped/quality/score/provenance field and
`updated_at` from the fresh values while `contact_status`,
`last_contacted`, `notes` and `scraped_at` are exactly the old row's. -/
theorem upsert_ownership (db : List LeadRow) (lead : Listing) (q now : String) :
    (findRow db lead.maps_link = none →
      upsertOne db lead q now = db ++
        [⟨lead.name, lead.address, lead.phone, lead.website, lead.rating,
          lead.review_count, lead.category, lead.maps_link, lead.photo_url,
          lead.photo_count, lead.has_description, lead.has_services,
          lead.owner_responds, lead.newest_review, lead.has_hours,
          lead.lead_score, lead.score_reasons, "new", none, none, q, now, now⟩]) ∧
    (∀ r0, findRow db lead.maps_link = some r0 →
      findRow (upsertOne db lead q now) lead.maps_link = some
        ⟨lead.name, lead.address, lead.phone, lead.website, lead.rating,
         lead.review_count, lead.category, r0.maps_link, lead.photo_url,
         lead.photo_count, lead.has_description, lead.has_services,
         lead.owner_responds, lead.newest_review, lead.has_hours,
         lead.lead_score, lead.score_reasons, r0.contact_status,
         r0.last_contacted, r0.notes, q, r0.scraped_at, now⟩) := by
  constructor
  · intro h
    simp only [upsertOne, h]
    rfl
  · intro r0 h
    simp only [upsertOne, h]
    rw [findRow_map_upd, h]
    cases r0
    rfl

/-- C4: upserting the same listing twice in a row leaves `contact_status`,
`last_contacted`, `notes` and the first-scraped timestamp exactly as they
stood after the first upsert, and advances `updated_at` to the second
upsert's time. -/
theorem upsert_idempotent (db : List LeadRow) (lead : Listing) (q t1 t2 : String)
    (r1 r2 : LeadRow)
    (h1 : findRow (upsertOne db lead q t1) lead.maps_link = some r1)
    (h2 : findRow (upsertOne (upsertOne db lead q t1) lead q t2) lead.maps_link = some r2) :
    r2.contact_status = r1.contact_status ∧ r2.last_contacted = r1.last_contacted ∧
    r2.notes = r1.notes ∧ r2.scraped_at = r1.scraped_at ∧ r2.updated_at = t2 := by
  have key : ∀ db1 : List LeadRow, findRow db1 lead.maps_link = some r1 →
      findRow (upsertOne db1 lead q t2) lead.maps_link = some r2 →
      r2.contact_status = r1.contact_status ∧ r2.last_contacted = r1.last_contacted ∧
      r2.notes = r1.notes ∧ r2.scraped_at = r1.scraped_at ∧ r2.updated_at = t2 := by
    intro db1 g1 g2
    simp only [upsertOne, g1] at g2
    rw [findRow_map_upd, g1] at g2
    have g3 : some (updateScraped lead q t2 r1) = some r2 := g2
    injection g3 with h
    subst h
    exact ⟨rfl, rfl, rfl, rfl, rfl⟩
  exact key _ h1 h2

/-- Demonstration listing used by the persistence witnesses. -/
def demoListing : Listing :=
  ⟨"Ace Plumbing", none, some 3, "Plumber", "https://maps.test/maps/place/ace", "", "", "", "",
   some 0, false, false, false, "", false, 0, ""⟩

/-- Demonstration stored row (after a CRM edit) with the same canonical
link as `demoListing`. -/
def demoRow : LeadRow :=
  ⟨"Ace Plumbing", "", "", "", none, none, "", "https://maps.test/maps/place/ace", "", none,
   false, false, false, "", false, 0, "", "contacted", some "2026-01-01", some "left note",
   "plumbers nj", "t0", "t0"⟩

/-- Witness for C1 at concrete inputs: an insert into the empty store and
an update of a CRM-edited row, each hypothesis discharged by computation. -/
theorem upsert_ownership_witness :
    upsertOne [] demoListing "plumbers nj" "t1" = [] ++
      [⟨"Ace Plumbing", "", "", "", none, some 3, "Plumber",
        "https://maps.test/maps/place/ace", "", some 0, false, false, false, "", false,
        0, "", "new", none, none, "plumbers nj", "t1", "t1"⟩] ∧
    findRow (upsertOne [demoRow] demoListing "plumbers nj" "t2")
        "https://maps.test/maps/place/ace" = some
      ⟨"Ace Plumbing", "", "", "", none, some 3, "Plumber",
        "https://maps.test/maps/place/ace", "", some 0, false, false, false, "", false,
        0, "", "contacted", some "2026-01-01", some "left note", "plumbers nj", "t0", "t2"⟩ :=
  ⟨(upsert_ownership [] demoListing "plumbers nj" "t1").1 rfl,
   (upsert_ownership [demoRow] demoListing "plumbers nj" "t2").2 demoRow rfl⟩

/-- Witness for C4 at concrete inputs: both find-hypotheses hold by
computation on the empty initial store. -/
theorem upsert_idempotent_witness :
    (updateScraped demoListing "plumbers nj" "t2"
        (insertRow demoListing "plumbers nj" "t1")).contact_status
      = (insertRow demoListing "plumbers nj" "t1").contact_status ∧
    (updateScraped demoListing "plumbers nj" "t2"
        (insertRow demoListing "plumbers nj" "t1")).last_contacted
      = (insertRow demoListing "plumbers nj" "t1").last_contacted ∧
    (updateScraped demoListing "plumbers nj" "t2"
        (insertRow demoListing "plumbers nj" "t1")).notes
      = (insertRow demoListing "plumbers nj" "t1").notes ∧
    (updateScraped demoListing "plumbers nj" "t2"
        (insertRow demoListing "plumbers nj" "t1")).scraped_at
      = (insertRow demoListing "plumbers nj" "t1").scraped_at ∧
    (updateScraped demoListing "plumbers nj" "t2"
        (insertRow demoListing "plumbers nj" "t1")).updated_at = "t2" :=
  upsert_idempotent [] demoListing "plumbers nj" "t1" "t2"
    (insertRow demoListing "plumbers nj" "t1")
    (updateScraped demoListing "plumbers nj" "t2" (insertRow demoListing "plumbers nj" "t1"))
    rfl rfl

/-- C10: a CRM update request changes only the matched rows, and on a
matched row changes only `contact_status` (stored exactly as supplied),
`last_contacted` and `notes` (an empty or missing value stored as NULL, a
nonempty value stored as given) and `updated_at`; every other column of
the row, and every other row, is untouched, and no row is added or
removed. -/
theorem update_lead_frame (db : List LeadRow) (data : UpdateRequest) (now : String) :
    ((_update_lead db data now).length = db.length) ∧
    List.Forall₂ (fun r r2 =>
      (r.maps_link ≠ data.maps_link → r2 = r) ∧
      (r.maps_link = data.maps_link →
        r2.contact_status = data.contact_status ∧
        (data.last_contacted = none ∨ data.last_contacted = some "" →
          r2.last_contacted = none) ∧
        (∀ s, data.last_contacted = some s → s ≠ "" → r2.last_contacted = some s) ∧
        (data.notes = none ∨ data.notes = some "" → r2.notes = none) ∧
        (∀ s, data.notes = some s → s ≠ "" → r2.notes = some s) ∧
        r2.updated_at = now ∧
        r2.name = r.name ∧ r2.address = r.address ∧ r2.phone = r.phone ∧
        r2.website = r.website ∧ r2.rating = r.rating ∧
        r2.review_count = r.review_count ∧ r2.category = r.category ∧
        r2.maps_link = r.maps_link ∧ r2.photo_url = r.photo_url ∧
        r2.photo_count = r.photo_count ∧ r2.has_description = r.has_description ∧
        r2.has_services = r.has_services ∧ r2.owner_responds = r.owner_responds ∧
        r2.newest_review = r.newest_review ∧ r2.has_hours = r.has_hours ∧
        r2.lead_score = r.lead_score ∧ r2.score_reasons = r.score_reasons ∧
        r2.query = r.query ∧ r2.scraped_at = r.scraped_at))
      db (_update_lead db data now) := by
  refine ⟨by simp [_update_lead], ?_⟩
  rw [_update_lead]
  rw [List.forall₂_map_right_iff]
  rw [List.forall₂_same]
  intro r hr
  constructor
  · intro hne
    rw [if_neg (by simpa using hne)]
  · intro heq
    rw [if_pos (by simpa using heq)]
    obtain ⟨dml, dcs, dlc, dns⟩ := data
    refine ⟨rfl, ?_, ?_, ?_, ?_, rfl, rfl, rfl, rfl, rfl, rfl, rfl, rfl, rfl, rfl,
            rfl, rfl, rfl, rfl, rfl, rfl, rfl, rfl, rfl, rfl⟩
    · rintro (h | h) <;> simp_all [orNone]
    · intro s hs hne
      simp_all [orNone]
    · rintro (h | h) <;> simp_all [orNone]
    · intro s hs hne
      simp_all [orNone]

/-- Witness for C10 at a concrete store and request: the matched row keeps
its scraped columns, takes the supplied status, stores the empty
`last_contacted` as NULL and advances `updated_at`. -/
theorem update_lead_frame_witness :
    _update_lead [demoRow] ⟨"https://maps.test/maps/place/ace", "replied", some "", some "won"⟩ "t3"
      = [⟨"Ace Plumbing", "", "", "", none, none, "", "https://maps.test/maps/place/ace", "",
          none, false, false, false, "", false, 0, "", "replied", none, some "won",
          "plumbers nj", "t0", "t3"⟩] ∧
    (_update_lead [demoRow] ⟨"https://maps.test/maps/place/ace", "replied", some "", some "won"⟩
        "t3").length = 1 :=
  ⟨rfl, (update_lead_frame [demoRow]
    ⟨"https://maps.test/maps/place/ace", "replied", some "", some "won"⟩ "t3").1⟩

/-! ## Collection-loop theorems (claim C5) -/

theorem collect_length (cards : List Anchor) : ∀ (m : Nat) (seen : List String),
    (collectGo cards m seen).length ≤ m := by
  induction cards with
  | nil => intro m seen; simp [collectGo]
  | cons c cs ih =>
    intro m seen
    simp only [collectGo]
    split
    · simp
    · split
      · exact ih m seen
      · split
        · exact ih m seen
        · split
          · exact ih m seen
          · split
            · exact ih m (cardName c :: seen)
            · simp only [List.length_cons]
              have := ih (m - 1) (cardName c :: seen)
              omega

theorem collect_sublist (cards : List Anchor) : ∀ (m : Nat) (seen : List String),
    (collectGo cards m seen).Sublist (cards.map mkStub) := by
  induction cards with
  | nil => intro m seen; simp [collectGo]
  | cons c cs ih =>
    intro m seen
    simp only [collectGo, List.map_cons]
    split
    · exact List.nil_sublist _
    · split
      · exact List.Sublist.cons _ (ih m seen)
      · split
        · exact List.Sublist.cons _ (ih m seen)
        · split
          · exact List.Sublist.cons _ (ih m seen)
          · split
            next e heq => exact List.Sublist.cons _ (ih m (cardName c :: seen))
            next rc heq =>
              have hs2 : stubListing c rc = mkStub c := by
                simp [mkStub, reviewVal, heq]
              rw [hs2]
              exact List.Sublist.cons₂ _ (ih (m - 1) (cardName c :: seen))

theorem collect_pair (c1 c2 : Anchor) (m : Nat) (h1 : stubOk c1 = true)
    (hn : cardName c2 = cardName c1) (hm : 1 ≤ m) :
    extract_listings_from_search [c1, c2] m = [mkStub c1] := by
  have hm0 : ¬ (m = 0) := by omega
  simp only [stubOk, Bool.and_eq_true, bne_iff_ne] at h1
  obtain ⟨⟨hv, hne⟩, hr⟩ := h1
  rcases hrc : extract_review_count c1.parentText with e | rc
  · simp [reviewOk, hrc] at hr
  · have hstub : stubListing c1 rc = mkStub c1 := by
      simp [mkStub, reviewVal, hrc]
    simp only [extract_listings_from_search, collectGo, if_neg hm0, hv, Bool.not_true,
      Bool.false_eq_true, if_false, if_neg hne, hrc, List.not_mem_nil, if_false]
    by_cases hm1 : m - 1 = 0
    · simp only [collectGo, if_pos hm1]
      simp [hstub]
    · simp only [collectGo, if_neg hm1]
      by_cases hv2 : validHref c2.href = true
      · simp only [hv2, Bool.not_true, Bool.false_eq_true, if_false]
        rw [if_neg (by rw [hn]; exact hne)]
        rw [if_pos (by rw [hn]; exact List.mem_singleton.mpr rfl)]
        simp [hstub, collectGo]
      · simp only [hv2]
        simp [hstub, collectGo]

theorem countLink_map_upd (lead : Listing) (q now k : String) (db : List LeadRow) :
    countLink (db.map (fun r => if r.maps_link == lead.maps_link
        then updateScraped lead q now r else r)) k = countLink db k := by
  induction db with
  | nil => rfl
  | cons a l ih =>
    simp only [countLink] at ih ⊢
    simp only [List.map_cons, List.countP_cons]
    rw [ih]
    congr 1
    by_cases h : a.maps_link == lead.maps_link
    · rw [if_pos h, updateScraped_maps_link]
    · rw [if_neg h]

theorem upsert_pair_collapse (db : List LeadRow) (l1 l2 : Listing) (q now : String)
    (hlink : l2.maps_link = l1.maps_link) (h0 : countLink db l1.maps_link = 0) :
    countLink (upsert_leads db [l1, l2] q now) l1.maps_link = 1 := by
  simp only [countLink] at h0
  have hfind : findRow db l1.maps_link = none :=
    List.find?_eq_none.mpr (by simpa using List.countP_eq_zero.mp h0)
  simp only [upsert_leads, List.foldl_cons, List.foldl_nil]
  rw [show upsertOne db l1 q now = db ++ [insertRow l1 q now] from by
    simp [upsertOne, hfind]]
  have hfind2 : findRow (db ++ [insertRow l1 q now]) l2.maps_link
      = some (insertRow l1 q now) := by
    rw [hlink]
    rw [findRow] at hfind ⊢
    rw [List.find?_append, hfind]
    simp [insertRow]
  simp only [upsertOne, hfind2]
  rw [countLink_map_upd]
  simp [countLink, List.countP_append, List.countP_cons, h0, insertRow]

/-- C5: in one collection pass the listing count never exceeds the
requested maximum (first conjunct, the loop's break-at-max); the output is
a subsequence of the per-anchor stubs in encounter order, never re-sorted
(second conjunct); two anchors with the same visible display name produce
exactly the first anchor's stub (third conjunct, for a pass over those two
anchors); and two listings with different names but one canonical link
collapse to a single stored Lead Record at persistence time (fourth
conjunct). -/
theorem listing_dedup_order_cap :
    (∀ (cards : List Anchor) (m : Nat),
      (extract_listings_from_search cards m).length ≤ m) ∧
    (∀ (cards : List Anchor) (m : Nat),
      (extract_listings_from_search cards m).Sublist (cards.map mkStub)) ∧
    (∀ (c1 c2 : Anchor) (m : Nat), stubOk c1 = true → cardName c2 = cardName c1 → 1 ≤ m →
      extract_listings_from_search [c1, c2] m = [mkStub c1]) ∧
    (∀ (db : List LeadRow) (l1 l2 : Listing) (q now : String),
      l2.maps_link = l1.maps_link → countLink db l1.maps_link = 0 →
      countLink (upsert_leads db [l1, l2] q now) l1.maps_link = 1) :=
  ⟨fun cards m => collect_length cards m [],
   fun cards m => collect_sublist cards m [],
   collect_pair,
   upsert_pair_collapse⟩

/-- Demonstration anchors with one visible display name ("Ace Plumbing",
the first with surrounding whitespace in the label) and distinct hrefs. -/
def demoAnchor1 : Anchor :=
  ⟨"https://maps.test/maps/place/ace", " Ace Plumbing ", "Plumber"⟩

/-- Second demonstration anchor, same display name as `demoAnchor1`. -/
def demoAnchor2 : Anchor :=
  ⟨"https://maps.test/maps/place/ace-2", "Ace Plumbing", "nope"⟩

/-- Demonstration listing with a different name but the same canonical
link as `demoListing`. -/
def demoListing2 : Listing :=
  ⟨"Ace Plumbing LLC", none, none, "", "https://maps.test/maps/place/ace", "", "", "", "",
   some 0, false, false, false, "", false, 0, ""⟩

/-- Witness for C5 at concrete inputs: the two same-named anchors yield
exactly one stub, and the two same-link listings end as one stored row. -/
theorem listing_dedup_witness :
    extract_listings_from_search [demoAnchor1, demoAnchor2] 20 = [mkStub demoAnchor1] ∧
    countLink (upsert_leads [] [demoListing, demoListing2] "plumbers nj" "t")
      "https://maps.test/maps/place/ace" = 1 :=
  ⟨listing_dedup_order_cap.2.2.1 demoAnchor1 demoAnchor2 20 (by decide) (by decide) (by decide),
   listing_dedup_order_cap.2.2.2 [] demoListing demoListing2 "plumbers nj" "t" rfl rfl⟩

/-! ## Category heuristic theorems (claim C7) -/

/-- C7 counterexample: the line "Open 24 hours" is not the display name,
nonempty, does not start with a digit or currency symbol, contains no
"review" and is under 60 characters, so the claim as stated predicts it is
returned; the code skips it (its extra `startswith("Open")` exclusion) and
returns "". -/
theorem extract_category_cex :
    extract_category "Open 24 hours" "Ace Plumbing" = "" ∧
    specFirstCategoryLine "Open 24 hours" "Ace Plumbing" = "Open 24 hours" := by decide

theorem isPrefixOf_eq_decide (l1 l2 : List Char) : l1.isPrefixOf l2 = decide (l1 <+: l2) := by
  by_cases h : l1 <+: l2
  · simp [h, List.isPrefixOf_iff_prefix]
  · have h2 : ¬ (l1.isPrefixOf l2 = true) := fun hb => h (List.isPrefixOf_iff_prefix.mp hb)
    simp [h, Bool.eq_false_iff.mpr h2]

theorem strBeq_eq_decide (a b : String) : (a == b) = decide (a = b) := by
  by_cases h : a = b <;> simp [h]

/-- C7 amended: `extract_category` returns the first stripped line that is
not the display name, not empty, not started by a digit, '(', '.' or '$',
does not contain "review" (case-insensitively), is under 60 characters and
does not start with "Open" or "Closed"; if no line qualifies it returns
the empty string. -/
theorem extract_category_characterisation (text name : String) :
    extract_category text name = ((((splitNL text).map pyStrip).find? (catKeep name))).getD "" := by
  unfold extract_category
  generalize splitNL text = ls
  induction ls with
  | nil => rfl
  | cons l ls ih =>
    simp only [catLoop, List.map_cons, List.find?_cons]
    by_cases h1 : pyStrip l = name <;> by_cases h2 : pyStrip l = "" <;>
    by_cases h3 : startsCatSkip (pyStrip l).data = true <;>
    by_cases h4 : strContains (lowerS (pyStrip l)) "review" = true <;>
    by_cases h5 : (pyStrip l).length < 60 <;>
    by_cases h6 : ['O', 'p', 'e', 'n'] <+: (pyStrip l).data <;>
    by_cases h7 : ['C', 'l', 'o', 's', 'e', 'd'] <+: (pyStrip l).data <;>
    simp [catKeep, isPrefixOf_eq_decide, strBeq_eq_decide, h1, h2, h3, h4, h5, h6, h7, ih]

/-- Witness for C7's amended characterisation at a concrete text block:
the name line, a rating line, a review line and a price line are all
skipped and the category line is returned. -/
theorem extract_category_witness :
    extract_category "Ace Plumbing\n4.5\n(12 reviews)\n$50 callout\nPlumber" "Ace Plumbing"
      = "Plumber" ∧
    ((((splitNL "Ace Plumbing\n4.5\n(12 reviews)\n$50 callout\nPlumber").map pyStrip).find?
       (catKeep "Ace Plumbing"))).getD "" = "Plumber" := by
  constructor
  · rw [extract_category_characterisation]
    decide
  · decide

/-! ## `extract_detail_field` (scraper.py lines 591-640) -/

/-- An element as `extract_detail_field` reads it: its attributes (a
missing attribute reads as "", matching the source's `or ""`), and its
visible text. -/
structure PageElem where
  attrs : List (String × String)
  text : String

/-- Python `el.get_attribute(a) or ""`. -/
def elemAttr (e : PageElem) (a : String) : String :=
  ((e.attrs.find? (fun p => p.1 == a)).map (fun p => p.2)).getD ""

/-- Python `val.replace("tel:", "")`: remove every (left-to-right,
non-overlapping) occurrence. -/
def removeTel : List Char → List Char
  | 't' :: 'e' :: 'l' :: ':' :: rest => removeTel rest
  | c :: rest => c :: removeTel rest
  | [] => []

/-- Python `re.sub(r'^[^:]+:\s*', '', val)`: when the text starts with at
least one non-colon character followed by a colon, drop through that colon
and any following whitespace. -/
def colonSub (l : List Char) : List Char :=
  let pre := l.takeWhile (fun c => c ≠ ':')
  if pre.isEmpty then l
  else
    match l.drop pre.length with
    | ':' :: rest => rest.dropWhile pyWS
    | _ => l

/-- The aria-label cleanup `re.sub(r'^[^:]+:\s*', '', val).strip()`. -/
def cleanLabel (v : String) : String := String.mk (stripL (colonSub v.toList))

/-- The attribute loop of `extract_detail_field`: first nonempty attribute
value wins, a `tel:` href is returned with the scheme removed, a matcher
(the `text_pattern` regex, abstracted as a function returning the matched
text) is applied when given, otherwise the label cleanup is applied. -/
def attrLoop (el : PageElem) (tp : Option (String → Option String)) : List String → Option String
  | [] => none
  | a :: rest =>
    let val := elemAttr el a
    if val ≠ "" then
      if a = "href" ∧ "tel:".toList.isPrefixOf val.toList then
        some (pyStrip (String.mk (removeTel val.toList)))
      else
        match tp with
        | some f =>
          match f val with
          | some m => some (pyStrip m)
          | none => attrLoop el tp rest
        | none =>
          let cleaned := cleanLabel val
          if cleaned ≠ "" then some cleaned else attrLoop el tp rest
    else attrLoop el tp rest

/-- The href acceptance test of the `href_filter` branch, verbatim from
the source: nonempty, starts with "http", and "google" does not occur
anywhere in it. -/
def hrefAccept (e : PageElem) : Bool :=
  let href := elemAttr e "href"
  (href != "") && "http".toList.isPrefixOf href.toList && !(strContains href "google")

/-- The aria-label fallback test of the `href_filter` branch, verbatim
from the source: nonempty, contains a dot, and its stripped form contains
no space. -/
def ariaAccept (e : PageElem) : Bool :=
  let aria := elemAttr e "aria-label"
  (aria != "") && strContains aria "." && !(strContains (pyStrip aria) " ")

/-- The `https://` synthesis of the `href_filter` branch. -/
def withHttps (u : String) : String :=
  if "http".toList.isPrefixOf u.toList then u else "https://" ++ u

/-- Embeds `extract_detail_field` over the elements its selectors found
(in selector order; a selector with no element contributes nothing).  The
`text_pattern` regex is abstracted as a matcher function returning the
matched text, since the source takes the pattern as a parameter. -/
def extract_detail_field (els : List PageElem) (attr_patterns : List String)
    (text_pattern : Option (String → Option String)) (href_filter : Bool) : String :=
  match els with
  | [] => ""
  | el :: rest =>
    if href_filter then
      if hrefAccept el then elemAttr el "href"
      else if ariaAccept el then withHttps (pyStrip (elemAttr el "aria-label"))
      else extract_detail_field rest attr_patterns text_pattern href_filter
    else
      match attrLoop el text_pattern attr_patterns with
      | some v => v
      | none =>
        let text := pyStrip el.text
        if text ≠ "" then
          match text_pattern with
          | some f =>
            match f text with
            | some m => pyStrip m
            | none => extract_detail_field rest attr_patterns text_pattern href_filter
          | none => text
        else extract_detail_field rest attr_patterns text_pattern href_filter

/-- The website extraction call (scraper.py lines 453-463):
`attr_patterns=["href"]`, no text pattern, `href_filter=True`. -/
def extractWebsite (els : List PageElem) : String :=
  extract_detail_field els ["href"] none true

/-- Which element the `href_filter` scan accepts and through which path
(`true` = direct href, `false` = aria-label synthesis). -/
def websiteResult : List PageElem → Option (PageElem × Bool)
  | [] => none
  | e :: rest =>
    if hrefAccept e then some (e, true)
    else if ariaAccept e then some (e, false)
    else websiteResult rest

/-- Drop everything up to and including the first "://". -/
def dropThroughScheme : List Char → List Char
  | [] => []
  | c :: cs =>
    if "://".toList.isPrefixOf (c :: cs) then cs.drop 2 else dropThroughScheme cs

/-- The host of an absolute URL: what stands between "://" and the next
'/', '?' or '#'. -/
def hostOf (s : String) : String :=
  String.mk ((dropThroughScheme s.toList).takeWhile (fun c => c ≠ '/' ∧ c ≠ '?' ∧ c ≠ '#'))

theorem dropThroughScheme_suffix (l : List Char) : (dropThroughScheme l) <:+ l := by
  induction l with
  | nil => simp [dropThroughScheme]
  | cons c cs ih =>
    simp only [dropThroughScheme]
    split
    · exact (List.drop_suffix 2 cs).trans (List.suffix_cons c cs)
    · exact ih.trans (List.suffix_cons c cs)

theorem hostOf_no_google (s : String) (h : strContains s "google" = false) :
    strContains (hostOf s) "google" = false := by
  apply Bool.eq_false_iff.mpr
  intro hb
  have h1 : "google".toList <:+: (hostOf s).toList := containsSub_iff.mp hb
  have h2 : (hostOf s).toList <:+: s.toList := by
    have hp := List.takeWhile_prefix
      (fun c : Char => decide (c ≠ '/' ∧ c ≠ '?' ∧ c ≠ '#'))
      (l := dropThroughScheme s.toList)
    exact hp.isInfix.trans (dropThroughScheme_suffix s.toList).isInfix
  have h3 := containsSub_iff.mpr (h1.trans h2)
  simp only [strContains] at h
  rw [h] at h3
  cases h3

/-- C6: in href-filter mode the extractor returns a nonempty result only
through one of two paths: a direct candidate link, which is then an
absolute link ("http..." prefix) containing no "google" anywhere — hence
with a host that is not the map provider's domain — or a bare
domain-looking aria-label, returned with an "https://" prefix synthesized
when it does not already start with "http"; when no element passes either
test the result is the empty string. -/
theorem website_filter (els : List PageElem) :
    (websiteResult els = none → extractWebsite els = "") ∧
    (∀ e, websiteResult els = some (e, true) →
      extractWebsite els = elemAttr e "href" ∧
      "http".toList.isPrefixOf (extractWebsite els).toList = true ∧
      strContains (extractWebsite els) "google" = false ∧
      strContains (hostOf (extractWebsite els)) "google" = false) ∧
    (∀ e, websiteResult els = some (e, false) →
      extractWebsite els = withHttps (pyStrip (elemAttr e "aria-label"))) := by
  induction els with
  | nil =>
    refine ⟨fun _ => rfl, ?_, ?_⟩ <;> intro e h <;> simp [websiteResult] at h
  | cons e rest ih =>
    by_cases hh : hrefAccept e = true
    · refine ⟨?_, ?_, ?_⟩
      · intro h
        simp [websiteResult, hh] at h
      · intro e2 h2
        simp only [websiteResult, hh, if_true] at h2
        have he : e = e2 := by
          simpa using congrArg (fun o => (o.map Prod.fst)) h2
        subst he
        have hres : extractWebsite (e :: rest) = elemAttr e "href" := by
          simp [extractWebsite, extract_detail_field, hh]
        have hparts := hh
        simp only [hrefAccept, Bool.and_eq_true, bne_iff_ne] at hparts
        obtain ⟨⟨hne, hpre⟩, hng⟩ := hparts
        have hng2 : strContains (elemAttr e "href") "google" = false := by
          simpa using hng
        refine ⟨hres, ?_, ?_, ?_⟩
        · rw [hres]; exact hpre
        · rw [hres]; exact hng2
        · rw [hres]; exact hostOf_no_google _ hng2
      · intro e2 h2
        simp [websiteResult, hh] at h2
    · by_cases ha : ariaAccept e = true
      · refine ⟨?_, ?_, ?_⟩
        · intro h
          simp [websiteResult, hh, ha] at h
        · intro e2 h2
          simp [websiteResult, hh, ha] at h2
        · intro e2 h2
          simp only [websiteResult, hh, ha, if_true, if_false, Bool.false_eq_true] at h2
          have he : e = e2 := by
            simpa using congrArg (fun o => (o.map Prod.fst)) h2
          subst he
          simp [extractWebsite, extract_detail_field, hh, ha]
      · have hres : extractWebsite (e :: rest) = extractWebsite rest := by
          simp [extractWebsite, extract_detail_field, hh, ha]
        have hws : websiteResult (e :: rest) = websiteResult rest := by
          simp [websiteResult, hh, ha]
        refine ⟨?_, ?_, ?_⟩
        · intro h
          rw [hws] at h
          rw [hres]
          exact ih.1 h
        · intro e2 h2
          rw [hws] at h2
          rw [hres]
          exact ih.2.1 e2 h2
        · intro e2 h2
          rw [hws] at h2
          rw [hres]
          exact ih.2.2 e2 h2

def demoElemHref : PageElem := ⟨[("href", "https://acmeplumbing.com/contact")], ""⟩

def demoElemAria : PageElem := ⟨[("aria-label", "acmeplumbing.com")], ""⟩

/-- Witness for C6 at concrete elements: a direct external link is
returned as-is with a google-free host, and a bare domain aria-label gets
the https prefix. -/
theorem website_filter_witness :
    extractWebsite [demoElemHref] = "https://acmeplumbing.com/contact" ∧
    strContains (hostOf (extractWebsite [demoElemHref])) "google" = false ∧
    extractWebsite [demoElemAria] = "https://acmeplumbing.com" := by
  refine ⟨((website_filter [demoElemHref]).2.1 demoElemHref rfl).1,
          ((website_filter [demoElemHref]).2.1 demoElemHref rfl).2.2.2, ?_⟩
  rw [(website_filter [demoElemAria]).2.2 demoElemAria rfl]
  decide

/-! ## `_extract_quality_signals` (scraper.py lines 492-588) -/

/-- Word boundary `\b` before a word-character position: start of text or
a preceding non-word character. -/
def wordBoundaryOk : Option Char → Bool
  | none => true
  | some p => !(isWordCh p)

/-- The photo-count loop: the first button label with a
`(\d[\d,]*)\s*photo` match (IGNORECASE) gives the count. -/
def photoFromLabels : List String → Option Nat
  | [] => none
  | a :: rest =>
    match scanNumWord true true "photo".toList a.toList with
    | some run => some (digitsToNat (stripCommas run))
    | none => photoFromLabels rest

/-- Whether `\bw\b` occurs in the text, scanning with the previous
character (the words used start and end with word characters, so `\b`
amounts to a non-word or absent neighbour on each side). -/
def existsWordOcc (w : List Char) : Option Char → List Char → Bool
  | _, [] => false
  | prev, c :: cs =>
    (wordBoundaryOk prev && w.isPrefixOf (c :: cs) && boundaryAfter ((c :: cs).drop w.length))
    || existsWordOcc w (some c) cs

/-- The remainder of the text after the first `\bw\b` occurrence. -/
def findWordOccRest (w : List Char) : Option Char → List Char → Option (List Char)
  | _, [] => none
  | prev, c :: cs =>
    if wordBoundaryOk prev && w.isPrefixOf (c :: cs) && boundaryAfter ((c :: cs).drop w.length)
    then some ((c :: cs).drop w.length)
    else findWordOccRest w (some c) cs

/-- Regex `\bAbout\b.*\bFrom the business\b` with `re.S`: some boundary
occurrence of "About" followed anywhere later by a boundary occurrence of
"From the business" (taking the first "About" loses no generality). -/
def aboutFromBusiness (t : List Char) : Bool :=
  match findWordOccRest "About".toList none t with
  | some rest => existsWordOcc "From the business".toList (some 't') rest
  | none => false

/-- Whether a '$' occurs before the next newline (`.*\$` without
`re.S`). -/
def dollarBeforeNewline : List Char → Bool
  | [] => false
  | c :: cs => if c = '$' then true else if c = '\n' then false else dollarBeforeNewline cs

/-- Regex `\bService\w*\b.*\$`: a boundary occurrence of "Service",
its maximal `\w*` continuation, then a '$' on the same line. -/
def serviceDollar : Option Char → List Char → Bool
  | _, [] => false
  | prev, c :: cs =>
    (wordBoundaryOk prev && "Service".toList.isPrefixOf (c :: cs)
      && dollarBeforeNewline (((c :: cs).drop 7).dropWhile isWordCh))
    || serviceDollar (some c) cs

/-- The unit alternation `(?:day|week|month|year)` (first letters are
distinct, so at most one branch matches at a position). -/
def matchUnit (l : List Char) : Option (List Char) :=
  (["day".toList, "week".toList, "month".toList, "year".toList]).find?
    (fun u => u.isPrefixOf l)

/-- A match of the newest-review fallback pattern
`(\d+\s+(?:day|week|month|year)s?\s+ago|a\s+(?:day|week|month|year)\s+ago)`
at this exact position, returning the matched text. -/
def agoAt (l : List Char) : Option (List Char) :=
  let branch1 :=
    (let digits := l.takeWhile Char.isDigit
     if digits.isEmpty then none else
     let r1 := l.drop digits.length
     let sp1 := r1.takeWhile pyWS
     if sp1.isEmpty then none else
     let r2 := r1.drop sp1.length
     match matchUnit r2 with
     | none => none
     | some u =>
       let r3 := r2.drop u.length
       let sTaken : List Char := match r3 with
         | 's' :: _ => ['s']
         | _ => []
       let r4 := r3.drop sTaken.length
       let sp2 := r4.takeWhile pyWS
       if sp2.isEmpty then none else
       if "ago".toList.isPrefixOf (r4.drop sp2.length) then
         some (digits ++ sp1 ++ u ++ sTaken ++ sp2 ++ "ago".toList)
       else none)
  match branch1 with
  | some m => some m
  | none =>
    match l with
    | 'a' :: r1 =>
      let sp1 := r1.takeWhile pyWS
      if sp1.isEmpty then none else
      let r2 := r1.drop sp1.length
      match matchUnit r2 with
      | none => none
      | some u =>
        let r3 := r2.drop u.length
        let sp2 := r3.takeWhile pyWS
        if sp2.isEmpty then none else
        if "ago".toList.isPrefixOf (r3.drop sp2.length) then
          some ('a' :: (sp1 ++ u ++ sp2 ++ "ago".toList))
        else none
    | _ => none

/-- Leftmost match of the newest-review fallback pattern. -/
def agoSearch : List Char → Option (List Char)
  | [] => none
  | c :: cs =>
    match agoAt (c :: cs) with
    | some m => some m
    | none => agoSearch cs

/-- The detail page as `_extract_quality_signals` queries it: the main
region's text (absent when the element is missing), the photo buttons'
aria-labels, the photo-thumbnail count, presence booleans for the
description/services/owner-response/hours elements, and the
review-timestamp texts in page order. -/
structure DetailPage where
  mainText : Option String
  photoButtonLabels : List String
  photoThumbButtons : Nat
  descriptionEls : Bool
  servicesEls : Bool
  responseEls : Bool
  reviewDateTexts : List String
  hoursEls : Bool

/-- The six quality signals of a listing. -/
structure QualitySignals where
  photo_count : Int
  has_description : Bool
  has_services : Bool
  owner_responds : Bool
  newest_review : String
  has_hours : Bool
deriving DecidableEq

/-- Embeds `_extract_quality_signals`: each signal's primary heuristic
with its textual fallback, every `try`/`except` absence reading as an
empty query result. -/
def _extract_quality_signals (page : DetailPage) : QualitySignals :=
  let page_text := page.mainText.getD ""
  let pc0 : Int := ((photoFromLabels page.photoButtonLabels).map (Int.ofNat)).getD 0
  let photo_count : Int :=
    if pc0 = 0 ∧ page.photoThumbButtons ≠ 0 then (page.photoThumbButtons : Int) else pc0
  let has_description := page.descriptionEls || aboutFromBusiness page_text.toList
  let has_services := page.servicesEls ||
    (strContains page_text "Services" && serviceDollar none page_text.toList)
  let owner_responds := page.responseEls
  let newest_review :=
    match page.reviewDateTexts with
    | t :: _ => pyStrip t
    | [] =>
      match agoSearch page_text.toList with
      | some m => String.mk m
      | none => ""
  let has_hours := page.hoursEls ||
    (strContains page_text "Open 24 hours" || strContains page_text "Opens"
      || strContains page_text "Closed" || strContains page_text "Hours")
  ⟨photo_count, has_description, has_services, owner_responds, newest_review, has_hours⟩

/-- The page a detail scrape sees when every locator misses: no main
region, no buttons, no marker elements, no review dates. -/
def emptyDetailPage : DetailPage := ⟨none, [], 0, false, false, false, [], false⟩

theorem pyStrip_empty : pyStrip "" = "" := rfl

theorem attrLoop_empty (el : PageElem) (tp : Option (String → Option String))
    (hattrs : el.attrs = []) : ∀ aps : List String, attrLoop el tp aps = none := by
  intro aps
  induction aps with
  | nil => rfl
  | cons a rest ih => simp [attrLoop, elemAttr, hattrs, ih]

/-- C8: absence is a normal outcome, not a fault.  In the embedding
every extractor is a total function; this theorem records the defaults:
`extract_detail_field` returns "" when its selectors found nothing and
when every found element has no attributes and no text (no candidate
strategy yields a value), and on a detail page where every locator misses
the six quality signals come out as 0/false/false/false/""/false, so the
listing still reaches scoring and persistence with those defaults. -/
theorem extraction_absence_defaults :
    (∀ (aps : List String) (tp : Option (String → Option String)) (hf : Bool),
      extract_detail_field [] aps tp hf = "") ∧
    (∀ (els : List PageElem) (aps : List String) (tp : Option (String → Option String))
       (hf : Bool), (∀ e ∈ els, e.attrs = [] ∧ e.text = "") →
      extract_detail_field els aps tp hf = "") ∧
    _extract_quality_signals emptyDetailPage = ⟨0, false, false, false, "", false⟩ := by
  refine ⟨fun aps tp hf => rfl, ?_, by decide⟩
  intro els
  induction els with
  | nil => intro aps tp hf h; rfl
  | cons e rest ih =>
    intro aps tp hf h
    obtain ⟨hattrs, htext⟩ := h e (List.mem_cons_self e rest)
    have hrest : ∀ x ∈ rest, x.attrs = [] ∧ x.text = "" :=
      fun x hx => h x (List.mem_cons_of_mem e hx)
    have hskip := ih aps tp hf hrest
    rcases hf with _ | _
    · simp [extract_detail_field, attrLoop_empty e tp hattrs, htext, hskip, pyStrip_empty]
    · simp [extract_detail_field, hrefAccept, ariaAccept, elemAttr, hattrs, hskip]

/-- Witness for C8 at a concrete empty element: both extractor modes
return "". -/
theorem extraction_absence_witness :
    extract_detail_field [⟨[], ""⟩] ["aria-label", "href", "data-item-id"] none false = "" ∧
    extractWebsite [⟨[], ""⟩] = "" :=
  ⟨extraction_absence_defaults.2.1 [⟨[], ""⟩] ["aria-label", "href", "data-item-id"] none false
    (by intro e he; simp at he; simp [he]),
   extraction_absence_defaults.2.1 [⟨[], ""⟩] ["href"] none true
    (by intro e he; simp at he; simp [he])⟩
